import Mathlib

/-!
# Shallow embedding of the AgentOrchestrator core (src/AgentOrchestrator.ts)

This file embeds the orchestration core of the repository — the
AgentOrchestrator class together with its data model (ActionPlan, Action,
ExecutionResult, ExecutionMetrics, ResourceUsage, RunContext, Usage,
EvaluationResult) — and proves properties of the embedded operations.

Modelling conventions:

* JavaScript numbers are modelled as rationals (ℚ).  The one place the code
  can produce NaN — the divisions in evaluateExecution — is modelled by an
  Option ℚ result of jsDiv, where none stands for NaN (division by zero);
  every other arithmetic operation in the core stays inside ℚ.
* A promise that can reject is modelled as Except String, where
  Except.error is a rejection; awaiting inside try/catch corresponds to
  matching on the Except value.  Promise.all is promiseAll below: it
  resolves with the list of values when every element resolves and rejects
  as soon as any element rejects.
* JavaScript Map objects preserve insertion order, and set overwrites a
  present key in place; they are modelled by association lists with mapSet
  and mapGet below.  agents.values() is the list of second components, in
  insertion order.
* JavaScript objects are references: RunContext.data in the source holds a
  reference to the caller's object, so the model stores a reference (a Nat
  index) into an explicit heap of records.  Mutating the caller's object is
  List.set on the heap; reading a context's data goes through the heap.
* uuidv4() and new Date() are external inputs; they appear as explicit
  parameters (freshId, now) of the operations that call them.
* EventEmitter emissions (this.emit ...) carry no data back into the
  orchestrator's state or results; they are not modelled.
-/

namespace Orchestration

/-- A JavaScript value stored in a data record (opaque to the orchestrator). -/
inductive JSValue where
  | null : JSValue
  | num : ℚ → JSValue
  | str : String → JSValue
deriving DecidableEq

/-- A JavaScript object used as a plain record of key/value pairs. -/
abbrev JSRecord := List (String × JSValue)

/-- A heap of JavaScript objects; a reference is an index into the heap. -/
abbrev Heap := List JSRecord

/-- interface Usage: tokens, cost, time. -/
structure Usage where
  tokens : ℚ
  cost : ℚ
  time : ℚ
deriving DecidableEq

/-- interface ResourceUsage: cpu, memory, network. -/
structure ResourceUsage where
  cpu : ℚ
  memory : ℚ
  network : ℚ
deriving DecidableEq

/-- interface ExecutionMetrics: startTime, endTime, duration, resourceUsage.
Date values are modelled as rational timestamps. -/
structure ExecutionMetrics where
  startTime : ℚ
  endTime : ℚ
  duration : ℚ
  resourceUsage : ResourceUsage
deriving DecidableEq

/-- interface ExecutionResult: success, output (opaque payload), optional
error message, metrics. -/
structure ExecutionResult where
  success : Bool
  output : JSValue
  error : Option String
  metrics : ExecutionMetrics
deriving DecidableEq

/-- interface Action: id, type tag, parameters, dependencies. -/
structure Action where
  id : String
  type : String
  parameters : JSRecord
  dependencies : List String
deriving DecidableEq

/-- interface ActionPlan: id, agentId, actions, dependencies, priority. -/
structure ActionPlan where
  id : String
  agentId : String
  actions : List Action
  dependencies : List String
  priority : ℚ
deriving DecidableEq

/-- interface RunContext: id, optional parentContext, data (a reference to
the caller's object, see the heap model above), metadata, usage.  The
parent link makes this a recursive type, hence an inductive. -/
inductive RunContext where
  | mk (id : String) (parentContext : Option RunContext) (dataRef : Nat)
      (metadata : JSRecord) (usage : Usage) : RunContext

/-- The id field of a RunContext. -/
def RunContext.id : RunContext → String
  | .mk i _ _ _ _ => i

/-- The data field of a RunContext: the stored object reference. -/
def RunContext.dataRef : RunContext → Nat
  | .mk _ _ d _ _ => d

/-- The metadata field of a RunContext. -/
def RunContext.metadata : RunContext → JSRecord
  | .mk _ _ _ m _ => m

/-- The usage field of a RunContext. -/
def RunContext.usage : RunContext → Usage
  | .mk _ _ _ _ u => u

/-- interface IAgent: identity plus the learn/plan/execute contract.  The
asynchronous operations are functions into Except String, where
Except.error models a rejected promise. -/
structure IAgent where
  id : String
  name : String
  description : String
  capabilities : List String
  learn : RunContext → Except String Unit
  plan : RunContext → Except String ActionPlan
  execute : RunContext → ActionPlan → Except String ExecutionResult

/-- The averageResourceUsage block of an EvaluationResult.  Each field is a
JavaScript number that may be NaN (modelled as none) because the source
divides by results.length. -/
structure AvgResourceUsage where
  cpu : Option ℚ
  memory : Option ℚ
  network : Option ℚ
deriving DecidableEq

/-- interface EvaluationResult: success, totalTime, averageResourceUsage,
errors (the source collects r.error of failed results, which may be
undefined, hence Option String entries). -/
structure EvaluationResult where
  success : Bool
  totalTime : ℚ
  averageResourceUsage : AvgResourceUsage
  errors : List (Option String)
deriving DecidableEq

/-- Lookup in a JavaScript Map modelled as an association list (first
match; a well-formed Map has unique keys). -/
def mapGet {α : Type} : List (String × α) → String → Option α
  | [], _ => none
  | (k, v) :: rest, key => if k = key then some v else mapGet rest key

/-- Map.set: overwrite in place when the key is present (keeping its
insertion position), otherwise append at the end. -/
def mapSet {α : Type} : List (String × α) → String → α → List (String × α)
  | [], key, v => [(key, v)]
  | (k, w) :: rest, key, v =>
    if k = key then (key, v) :: rest else (k, w) :: mapSet rest key v

/-- Map.delete: remove the entry for the key, a no-op when absent. -/
def mapDelete {α : Type} : List (String × α) → String → List (String × α)
  | [], _ => []
  | (k, w) :: rest, key =>
    if k = key then rest else (k, w) :: mapDelete rest key

/-- The mutable instance state of an AgentOrchestrator: the agents map,
the contextStore map, and the executionQueue array. -/
structure OrchestratorState where
  agents : List (String × IAgent)
  contextStore : List (String × RunContext)
  executionQueue : List ActionPlan

/-- The state built by the constructor: all three containers empty. -/
def emptyOrchestrator : OrchestratorState :=
  { agents := [], contextStore := [], executionQueue := [] }

/-- registerAgent: this.agents.set(agent.id, agent). -/
def registerAgent (s : OrchestratorState) (agent : IAgent) : OrchestratorState :=
  { s with agents := mapSet s.agents agent.id agent }

/-- unregisterAgent: this.agents.delete(agentId). -/
def unregisterAgent (s : OrchestratorState) (agentId : String) : OrchestratorState :=
  { s with agents := mapDelete s.agents agentId }

/-- createContext(data, parentContext?): builds the context record with a
fresh id (uuidv4, passed in as freshId), the caller's data object stored by
reference (the source writes the shorthand property data, which copies the
reference, not the object), empty metadata, zeroed usage; registers it in
contextStore and returns it. -/
def createContext (s : OrchestratorState) (freshId : String) (dataRef : Nat)
    (parentContext : Option RunContext) : OrchestratorState × RunContext :=
  let context : RunContext :=
    .mk freshId parentContext dataRef [] { tokens := 0, cost := 0, time := 0 }
  ({ s with contextStore := mapSet s.contextStore context.id context }, context)

/-- getContext(contextId): lookup in the contextStore. -/
def getContext (s : OrchestratorState) (contextId : String) : Option RunContext :=
  mapGet s.contextStore contextId

/-- Reading a context's data dereferences the stored object reference
through the heap. -/
def readData (heap : Heap) (ctx : RunContext) : Option JSRecord :=
  heap.get? ctx.dataRef

/-- The planning loop of orchestrateLLM: for each registered agent (Map
iteration order), await agent.plan(context) inside try/catch; a plan that
resolves is pushed onto the queue, a rejection only emits planningError. -/
def collectPlans (agents : List (String × IAgent)) (ctx : RunContext) :
    List ActionPlan :=
  agents.filterMap fun kv =>
    match kv.2.plan ctx with
    | .ok plan => some plan
    | .error _ => none

/-- Insert a plan into a list sorted descending by priority, in front of
the first element of strictly smaller or equal priority is wrong for
stability, so: in front of the first element whose priority is less than or
equal — p came first, ties keep p first.  This realises one insertion step
of a stable descending sort. -/
def insertDesc (p : ActionPlan) : List ActionPlan → List ActionPlan
  | [] => [p]
  | q :: rest =>
    if q.priority ≤ p.priority then p :: q :: rest else q :: insertDesc p rest

/-- this.executionQueue.sort((a, b) => b.priority - a.priority): a stable
sort descending by priority (Array.prototype.sort is stable per the
language specification), modelled as a stable insertion sort. -/
def sortByPriorityDesc : List ActionPlan → List ActionPlan
  | [] => []
  | p :: rest => insertDesc p (sortByPriorityDesc rest)

/-- The shared execution loop of orchestrateLLM and orchestrateCode: walk
the plans in order; a plan whose agent is not in the map is skipped
(if (!agent) continue), an execute that resolves has its result pushed, an
execute that rejects only emits executionError and is not pushed. -/
def runQueue (agents : List (String × IAgent)) (ctx : RunContext) :
    List ActionPlan → List ExecutionResult
  | [] => []
  | plan :: rest =>
    match mapGet agents plan.agentId with
    | none => runQueue agents ctx rest
    | some agent =>
      match agent.execute ctx plan with
      | .ok result => result :: runQueue agents ctx rest
      | .error _ => runQueue agents ctx rest

/-- The order in which orchestrateLLM executes plans: the pre-existing
executionQueue with this run's collected plans pushed at the end, sorted in
place descending by priority. -/
def llmExecutionOrder (s : OrchestratorState) (ctx : RunContext) :
    List ActionPlan :=
  sortByPriorityDesc (s.executionQueue ++ collectPlans s.agents ctx)

/-- orchestrateLLM(context): collect plans from every registered agent
(planning failures isolated), sort the queue descending by priority, then
execute sequentially with per-plan failure isolation.  Every internal await
sits inside try/catch, so the promise always resolves: the result is
Except.ok.  The sorted queue stays in this.executionQueue (the field is
never cleared). -/
def orchestrateLLM (s : OrchestratorState) (ctx : RunContext) :
    OrchestratorState × Except String (List ExecutionResult) :=
  let sorted := llmExecutionOrder s ctx
  ({ s with executionQueue := sorted },
    .ok (runQueue s.agents ctx sorted))

/-- orchestrateCode(context, flow): execute the caller-supplied plans in
the given order with the same per-plan failure isolation loop; always
resolves. -/
def orchestrateCode (s : OrchestratorState) (ctx : RunContext)
    (flow : List ActionPlan) : Except String (List ExecutionResult) :=
  .ok (runQueue s.agents ctx flow)

/-- The synthesized result for a plan whose agent is not registered:
success false, null output, the defined error text, zero duration and
resource usage, both Date fields taken at the current time now. -/
def missingAgentResult (now : ℚ) (agentId : String) : ExecutionResult :=
  { success := false
    output := JSValue.null
    error := some ("Agent " ++ agentId ++ " not found")
    metrics :=
      { startTime := now
        endTime := now
        duration := 0
        resourceUsage := { cpu := 0, memory := 0, network := 0 } } }

/-- plans.map(...) inside executeParallel: each plan becomes either an
already-resolved synthesized failure (missing agent) or the promise of its
agent's execute call. -/
def parallelExecutions (s : OrchestratorState) (ctx : RunContext)
    (plans : List ActionPlan) (now : ℚ) : List (Except String ExecutionResult) :=
  plans.map fun plan =>
    match mapGet s.agents plan.agentId with
    | none => .ok (missingAgentResult now plan.agentId)
    | some agent => agent.execute ctx plan

/-- Promise.all: resolves with the list of values in input order when every
element resolves; rejects as soon as any element rejects. -/
def promiseAll : List (Except String ExecutionResult) →
    Except String (List ExecutionResult)
  | [] => .ok []
  | .error e :: _ => .error e
  | .ok r :: rest => (promiseAll rest).map fun l => r :: l

/-- executeParallel(context, plans): map every plan to an execution and
join with Promise.all.  Nothing catches a rejection here, so a rejecting
execute makes the whole call reject. -/
def executeParallel (s : OrchestratorState) (ctx : RunContext)
    (plans : List ActionPlan) (now : ℚ) : Except String (List ExecutionResult) :=
  promiseAll (parallelExecutions s ctx plans now)

/-- JavaScript division restricted to this code: both operands are finite
rationals, and dividing by zero yields NaN (none).  (0/0, the case that
actually occurs, is NaN; x/0 for x ≠ 0 would be an infinity, which this
code never produces meaningfully — none covers the not-a-rational outcome.) -/
def jsDiv (a b : ℚ) : Option ℚ :=
  if b = 0 then none else some (a / b)

/-- evaluateExecution(results): aggregate success by every(), totalTime by
reduce over durations, per-dimension average by reduce-sum divided by
results.length, and errors by filtering failures and mapping to r.error.
The function is async but never awaits and never throws, so the promise
wrapper is dropped. -/
def evaluateExecution (results : List ExecutionResult) : EvaluationResult :=
  { success := results.all fun r => r.success
    totalTime := results.foldl (fun sum r => sum + r.metrics.duration) 0
    averageResourceUsage :=
      { cpu := jsDiv (results.foldl (fun sum r => sum + r.metrics.resourceUsage.cpu) 0)
          (results.length : ℚ)
        memory := jsDiv (results.foldl (fun sum r => sum + r.metrics.resourceUsage.memory) 0)
          (results.length : ℚ)
        network := jsDiv (results.foldl (fun sum r => sum + r.metrics.resourceUsage.network) 0)
          (results.length : ℚ) }
    errors := (results.filter fun r => !r.success).map fun r => r.error }

/-- Placeholder plan used only as the default of List.getD in statements. -/
def defaultPlan : ActionPlan :=
  { id := "", agentId := "", actions := [], dependencies := [], priority := 0 }

/-- Placeholder result used only as the default of List.getD in statements. -/
def defaultExecutionResult : ExecutionResult :=
  { success := false
    output := JSValue.null
    error := none
    metrics :=
      { startTime := 0, endTime := 0, duration := 0
        resourceUsage := { cpu := 0, memory := 0, network := 0 } } }

/-! ## Helper lemmas about the embedded operations -/

lemma mem_insertDesc {x p : ActionPlan} {l : List ActionPlan} :
    x ∈ insertDesc p l ↔ x = p ∨ x ∈ l := by
  induction l with
  | nil => simp [insertDesc]
  | cons q rest ih =>
    by_cases h : q.priority ≤ p.priority
    · rw [insertDesc, if_pos h]
      simp only [List.mem_cons]
    · rw [insertDesc, if_neg h]
      simp only [List.mem_cons, ih]
      tauto

lemma pairwise_insertDesc {p : ActionPlan} {l : List ActionPlan}
    (hl : l.Pairwise fun a b => b.priority ≤ a.priority) :
    (insertDesc p l).Pairwise fun a b => b.priority ≤ a.priority := by
  induction l with
  | nil => simp [insertDesc]
  | cons q rest ih =>
    rcases List.pairwise_cons.mp hl with ⟨hq, hrest⟩
    by_cases h : q.priority ≤ p.priority
    · rw [insertDesc, if_pos h]
      refine List.pairwise_cons.mpr ⟨?_, hl⟩
      intro b hb
      rcases List.mem_cons.mp hb with rfl | hb'
      · exact h
      · exact le_trans (hq b hb') h
    · rw [insertDesc, if_neg h]
      refine List.pairwise_cons.mpr ⟨?_, ih hrest⟩
      intro b hb
      rcases mem_insertDesc.mp hb with rfl | hb'
      · exact le_of_lt (lt_of_not_le h)
      · exact hq b hb'

lemma pairwise_sortByPriorityDesc (l : List ActionPlan) :
    (sortByPriorityDesc l).Pairwise fun a b => b.priority ≤ a.priority := by
  induction l with
  | nil => simp [sortByPriorityDesc]
  | cons p rest ih => exact pairwise_insertDesc ih

lemma mem_sortByPriorityDesc {x : ActionPlan} {l : List ActionPlan} :
    x ∈ sortByPriorityDesc l ↔ x ∈ l := by
  induction l with
  | nil => simp [sortByPriorityDesc]
  | cons p rest ih =>
    rw [sortByPriorityDesc, mem_insertDesc]
    simp [ih]

lemma filter_priority_insertDesc (c : ℚ) (p : ActionPlan) (l : List ActionPlan) :
    (insertDesc p l).filter (fun x => decide (x.priority = c)) =
      if p.priority = c then p :: l.filter (fun x => decide (x.priority = c))
      else l.filter (fun x => decide (x.priority = c)) := by
  induction l with
  | nil => by_cases hc : p.priority = c <;> simp [insertDesc, hc]
  | cons q rest ih =>
    by_cases h : q.priority ≤ p.priority
    · rw [insertDesc, if_pos h]
      by_cases hc : p.priority = c <;> simp [List.filter_cons, hc]
    · rw [insertDesc, if_neg h]
      by_cases hq : q.priority = c
      · have hpc : ¬ p.priority = c := by
          intro hh
          exact h (le_of_eq (hq.trans hh.symm))
        simp [List.filter_cons, hq, ih, hpc]
      · by_cases hc : p.priority = c <;>
          simp [List.filter_cons, hq, ih, hc]

lemma filter_priority_sortByPriorityDesc (c : ℚ) (l : List ActionPlan) :
    (sortByPriorityDesc l).filter (fun x => decide (x.priority = c)) =
      l.filter (fun x => decide (x.priority = c)) := by
  induction l with
  | nil => rfl
  | cons p rest ih =>
    rw [sortByPriorityDesc, filter_priority_insertDesc, List.filter_cons]
    by_cases hc : p.priority = c <;> simp [hc, ih]

lemma runQueue_nil (agents : List (String × IAgent)) (ctx : RunContext) :
    runQueue agents ctx [] = [] := rfl

lemma runQueue_cons (agents : List (String × IAgent)) (ctx : RunContext)
    (plan : ActionPlan) (rest : List ActionPlan) :
    runQueue agents ctx (plan :: rest) =
      match mapGet agents plan.agentId with
      | none => runQueue agents ctx rest
      | some agent =>
        match agent.execute ctx plan with
        | .ok result => result :: runQueue agents ctx rest
        | .error _ => runQueue agents ctx rest := rfl

lemma runQueue_eq_filterMap (agents : List (String × IAgent)) (ctx : RunContext)
    (flow : List ActionPlan) :
    runQueue agents ctx flow = flow.filterMap fun plan =>
      match mapGet agents plan.agentId with
      | none => none
      | some agent => (agent.execute ctx plan).toOption := by
  induction flow with
  | nil => rfl
  | cons plan rest ih =>
    rw [runQueue_cons, List.filterMap_cons]
    cases h : mapGet agents plan.agentId with
    | none => simpa [h] using ih
    | some agent =>
      cases he : agent.execute ctx plan <;> simp [h, he, Except.toOption, ih]

lemma runQueue_append (agents : List (String × IAgent)) (ctx : RunContext)
    (l1 l2 : List ActionPlan) :
    runQueue agents ctx (l1 ++ l2) =
      runQueue agents ctx l1 ++ runQueue agents ctx l2 := by
  induction l1 with
  | nil => rfl
  | cons plan rest ih =>
    rw [List.cons_append, runQueue_cons, runQueue_cons]
    cases h : mapGet agents plan.agentId with
    | none => exact ih
    | some agent => cases he : agent.execute ctx plan <;> simp [he, ih]

lemma promiseAll_map_ok (l : List ExecutionResult) :
    promiseAll (l.map Except.ok) = .ok l := by
  induction l with
  | nil => rfl
  | cons r rest ih => simp [promiseAll, ih, Except.map]

lemma promiseAll_of_mem_error {xs : List (Except String ExecutionResult)}
    {e : String} (hx : Except.error e ∈ xs) :
    ∃ msg, promiseAll xs = .error msg := by
  induction xs with
  | nil => cases hx
  | cons x rest ih =>
    cases x with
    | error e2 => exact ⟨e2, rfl⟩
    | ok r =>
      rcases List.mem_cons.mp hx with h | h
      · cases h
      · rcases ih h with ⟨msg, hm⟩
        exact ⟨msg, by simp [promiseAll, hm, Except.map]⟩

lemma foldl_add_eq_sum (f : ExecutionResult → ℚ) (rs : List ExecutionResult)
    (a : ℚ) : rs.foldl (fun sum r => sum + f r) a = a + (rs.map f).sum := by
  induction rs generalizing a with
  | nil => simp
  | cons r rest ih =>
    rw [List.foldl_cons, ih, List.map_cons, List.sum_cons]
    ring

lemma parallelExecutions_cons (s : OrchestratorState) (ctx : RunContext)
    (p : ActionPlan) (ps : List ActionPlan) (now : ℚ) :
    parallelExecutions s ctx (p :: ps) now =
      (match mapGet s.agents p.agentId with
        | none => Except.ok (missingAgentResult now p.agentId)
        | some agent => agent.execute ctx p) :: parallelExecutions s ctx ps now := rfl

/-! ## Concrete fixtures used by witnesses and counterexamples -/

/-- A run context used as the concrete input of witnesses. -/
def wCtx : RunContext :=
  .mk "ctx-w" none 0 [] { tokens := 0, cost := 0, time := 0 }

/-- Build a plan with no actions and no dependencies. -/
def mkPlan (pid aid : String) (prio : ℚ) : ActionPlan :=
  { id := pid, agentId := aid, actions := [], dependencies := [], priority := prio }

/-- Build a successful execution result carrying the given output tag. -/
def mkOkResult (out : String) : ExecutionResult :=
  { success := true
    output := JSValue.str out
    error := none
    metrics :=
      { startTime := 0, endTime := 1, duration := 1
        resourceUsage := { cpu := 1, memory := 2, network := 3 } } }

/-- Build a failed execution result carrying the given error message. -/
def mkFailResult (msg : String) : ExecutionResult :=
  { success := false
    output := JSValue.null
    error := some msg
    metrics :=
      { startTime := 0, endTime := 1, duration := 1
        resourceUsage := { cpu := 0, memory := 0, network := 0 } } }

/-- Build a fake agent whose plan and execute calls return fixed outcomes. -/
def mkAgent (aid : String) (planOutcome : Except String ActionPlan)
    (execOutcome : Except String ExecutionResult) : IAgent :=
  { id := aid
    name := aid
    description := ""
    capabilities := []
    learn := fun _ => .ok ()
    plan := fun _ => planOutcome
    execute := fun _ _ => execOutcome }

/-! ## C4: evaluateExecution on the empty list -/

/-- Claim C4 (code side): evaluateExecution applied to the empty result
list divides each resource-usage sum by zero, producing NaN (modelled as
none) in every per-dimension average, while success is vacuously true,
totalTime is 0 and errors is empty.  This contradicts the claim that the
result is NaN-free, exhibiting the divide-by-zero the specification flags
as a latent bug. -/
theorem c4_evaluate_empty_nan :
    evaluateExecution [] =
      { success := true
        totalTime := 0
        averageResourceUsage := { cpu := none, memory := none, network := none }
        errors := [] } := by
  decide

/-! ## C7: evaluateExecution on a non-empty list -/

/-- Claim C7: for every non-empty input list, evaluateExecution returns the
logical AND of the success flags, the sum of the individual durations, and
the arithmetic mean of each resource dimension. -/
theorem c7_evaluate_nonempty (rs : List ExecutionResult) (h : rs ≠ []) :
    (evaluateExecution rs).success = rs.all (fun r => r.success) ∧
    ((evaluateExecution rs).success = true ↔ ∀ r ∈ rs, r.success = true) ∧
    (evaluateExecution rs).totalTime = (rs.map fun r => r.metrics.duration).sum ∧
    (evaluateExecution rs).averageResourceUsage.cpu =
      some ((rs.map fun r => r.metrics.resourceUsage.cpu).sum / (rs.length : ℚ)) ∧
    (evaluateExecution rs).averageResourceUsage.memory =
      some ((rs.map fun r => r.metrics.resourceUsage.memory).sum / (rs.length : ℚ)) ∧
    (evaluateExecution rs).averageResourceUsage.network =
      some ((rs.map fun r => r.metrics.resourceUsage.network).sum / (rs.length : ℚ)) := by
  have hn : (rs.length : ℚ) ≠ 0 := by
    have : rs.length ≠ 0 := fun hh => h (List.length_eq_zero.mp hh)
    exact_mod_cast this
  refine ⟨rfl, ?_, ?_, ?_, ?_, ?_⟩
  · simp [evaluateExecution, List.all_eq_true]
  · show rs.foldl (fun sum r => sum + r.metrics.duration) 0 = _
    rw [foldl_add_eq_sum, zero_add]
  · show jsDiv (rs.foldl (fun sum r => sum + r.metrics.resourceUsage.cpu) 0)
      (rs.length : ℚ) = _
    rw [jsDiv, if_neg hn, foldl_add_eq_sum, zero_add]
  · show jsDiv (rs.foldl (fun sum r => sum + r.metrics.resourceUsage.memory) 0)
      (rs.length : ℚ) = _
    rw [jsDiv, if_neg hn, foldl_add_eq_sum, zero_add]
  · show jsDiv (rs.foldl (fun sum r => sum + r.metrics.resourceUsage.network) 0)
      (rs.length : ℚ) = _
    rw [jsDiv, if_neg hn, foldl_add_eq_sum, zero_add]

/-- Witness for C7 at the concrete two-element input
[mkOkResult "w7", mkFailResult "w7boom"]. -/
theorem c7_evaluate_nonempty_witness :
    ([mkOkResult "w7", mkFailResult "w7boom"] : List ExecutionResult) ≠ [] ∧
    ((evaluateExecution [mkOkResult "w7", mkFailResult "w7boom"]).success =
      ([mkOkResult "w7", mkFailResult "w7boom"]).all (fun r => r.success) ∧
    ((evaluateExecution [mkOkResult "w7", mkFailResult "w7boom"]).success = true ↔
      ∀ r ∈ ([mkOkResult "w7", mkFailResult "w7boom"] : List ExecutionResult),
        r.success = true) ∧
    (evaluateExecution [mkOkResult "w7", mkFailResult "w7boom"]).totalTime =
      (([mkOkResult "w7", mkFailResult "w7boom"] : List ExecutionResult).map
        fun r => r.metrics.duration).sum ∧
    (evaluateExecution [mkOkResult "w7", mkFailResult "w7boom"]).averageResourceUsage.cpu =
      some ((([mkOkResult "w7", mkFailResult "w7boom"] : List ExecutionResult).map
        fun r => r.metrics.resourceUsage.cpu).sum /
        (([mkOkResult "w7", mkFailResult "w7boom"] : List ExecutionResult).length : ℚ)) ∧
    (evaluateExecution [mkOkResult "w7", mkFailResult "w7boom"]).averageResourceUsage.memory =
      some ((([mkOkResult "w7", mkFailResult "w7boom"] : List ExecutionResult).map
        fun r => r.metrics.resourceUsage.memory).sum /
        (([mkOkResult "w7", mkFailResult "w7boom"] : List ExecutionResult).length : ℚ)) ∧
    (evaluateExecution [mkOkResult "w7", mkFailResult "w7boom"]).averageResourceUsage.network =
      some ((([mkOkResult "w7", mkFailResult "w7boom"] : List ExecutionResult).map
        fun r => r.metrics.resourceUsage.network).sum /
        (([mkOkResult "w7", mkFailResult "w7boom"] : List ExecutionResult).length : ℚ))) :=
  ⟨by decide, c7_evaluate_nonempty [mkOkResult "w7", mkFailResult "w7boom"] (by decide)⟩

/-! ## C8: the errors field of an evaluation -/

/-- Counterexample to claim C8: the errors field does not keep one slot per
input result — the source filters out successful results before mapping to
r.error, so on [success, failure] it has a single slot, not two with an
undefined slot for the success. -/
theorem c8_errors_counterexample :
    (evaluateExecution [mkOkResult "c8ok", mkFailResult "c8boom"]).errors =
      [some "c8boom"] ∧
    (evaluateExecution [mkOkResult "c8ok", mkFailResult "c8boom"]).errors.length ≠ 2 := by
  constructor <;> decide

/-- Claim C8 as amended: the errors field has one slot per FAILED input
result, in input order, holding that result's error message; successful
results contribute no slot at all, so its length is the number of
failures. -/
theorem c8_errors_amended (rs : List ExecutionResult) :
    (evaluateExecution rs).errors =
      (rs.filter fun r => !r.success).map (fun r => r.error) ∧
    (evaluateExecution rs).errors.length = rs.countP (fun r => !r.success) := by
  refine ⟨rfl, ?_⟩
  show ((rs.filter fun r => !r.success).map fun r => r.error).length = _
  rw [List.length_map, List.countP_eq_length_filter]

/-! ## C1: predefined mode and a throwing execute -/

/-- Agent A of the C1 scenario: its execute call rejects. -/
def c1AgentA : IAgent := mkAgent "A" (.error "no plan") (.error "boom")

/-- Agent B of the C1 scenario: its execute call resolves successfully. -/
def c1AgentB : IAgent := mkAgent "B" (.error "no plan") (.ok (mkOkResult "B-out"))

/-- Orchestrator with agents A and B registered. -/
def c1State : OrchestratorState :=
  registerAgent (registerAgent emptyOrchestrator c1AgentA) c1AgentB

/-- PlanA of the C1 scenario, owned by the throwing agent A. -/
def c1PlanA : ActionPlan := mkPlan "pa" "A" 0

/-- PlanB of the C1 scenario, owned by the succeeding agent B. -/
def c1PlanB : ActionPlan := mkPlan "pb" "B" 0

/-- Counterexample to claim C1: in predefined mode with [PlanA, PlanB]
where PlanA's agent throws, orchestrateCode returns ONE entry (PlanB's
successful result), not two — the catch branch only emits an event and
pushes nothing, so the failing plan's entry is omitted rather than recorded
with success false. -/
theorem c1_predefined_throw_counterexample :
    orchestrateCode c1State wCtx [c1PlanA, c1PlanB] = .ok [mkOkResult "B-out"] ∧
    ((orchestrateCode c1State wCtx [c1PlanA, c1PlanB]).toOption.map List.length ≠
      some 2) := by
  constructor
  · rfl
  · decide

/-- Claim C1 as amended: in predefined mode the result list has one entry
per plan whose agent is found and whose execute resolves, in the given
order; a plan whose agent's execute throws (or whose agent is missing)
contributes no entry, and the remaining plans still execute. -/
theorem c1_predefined_omits_failures (s : OrchestratorState) (ctx : RunContext)
    (flow : List ActionPlan) :
    orchestrateCode s ctx flow = .ok (flow.filterMap fun plan =>
      match mapGet s.agents plan.agentId with
      | none => none
      | some agent => (agent.execute ctx plan).toOption) := by
  rw [orchestrateCode, runQueue_eq_filterMap]

/-! ## C2: propagation of agent failures out of orchestrate-* calls -/

/-- The rejecting agent of the C2 counterexample. -/
def c2Agent : IAgent := mkAgent "R" (.error "no plan") (.error "boom")

/-- Orchestrator with only the rejecting agent registered. -/
def c2State : OrchestratorState := registerAgent emptyOrchestrator c2Agent

/-- A plan owned by the rejecting agent. -/
def c2Plan : ActionPlan := mkPlan "pr" "R" 0

/-- Counterexample to claim C2: executeParallel joins with Promise.all and
nothing catches a rejection, so one agent's rejecting execute makes the
whole call reject instead of resolving with a result list. -/
theorem c2_parallel_rejection_counterexample :
    executeParallel c2State wCtx [c2Plan] 0 = .error "boom" := rfl

/-- Claim C2 as amended: orchestrateLLM and orchestrateCode always resolve
(every agent plan/execute await sits inside try/catch), but executeParallel
does not settle all executions: whenever some plan's registered agent has a
rejecting execute, the whole executeParallel call rejects. -/
theorem c2_propagation_amended (s : OrchestratorState) (ctx : RunContext)
    (plans : List ActionPlan) (now : ℚ) (p : ActionPlan) (a : IAgent) (e : String)
    (hp : p ∈ plans) (ha : mapGet s.agents p.agentId = some a)
    (he : a.execute ctx p = .error e) :
    (∃ l, (orchestrateLLM s ctx).2 = .ok l) ∧
    (∃ l, orchestrateCode s ctx plans = .ok l) ∧
    (∃ msg, executeParallel s ctx plans now = .error msg) := by
  refine ⟨⟨_, rfl⟩, ⟨_, rfl⟩, ?_⟩
  have hmem : (Except.error e : Except String ExecutionResult) ∈
      parallelExecutions s ctx plans now := by
    have hmap := List.mem_map_of_mem (fun plan =>
      match mapGet s.agents plan.agentId with
      | none => Except.ok (missingAgentResult now plan.agentId)
      | some agent => agent.execute ctx plan) hp
    rw [parallelExecutions]
    simpa [ha, he] using hmap
  exact promiseAll_of_mem_error hmem

/-- Witness for C2's amended theorem at the concrete rejecting agent. -/
theorem c2_propagation_amended_witness :
    c2Plan ∈ [c2Plan] ∧
    mapGet c2State.agents c2Plan.agentId = some c2Agent ∧
    c2Agent.execute wCtx c2Plan = .error "boom" ∧
    ((∃ l, (orchestrateLLM c2State wCtx).2 = .ok l) ∧
      (∃ l, orchestrateCode c2State wCtx [c2Plan] = .ok l) ∧
      (∃ msg, executeParallel c2State wCtx [c2Plan] 0 = .error msg)) :=
  ⟨List.mem_singleton.mpr rfl, rfl, rfl,
    c2_propagation_amended c2State wCtx [c2Plan] 0 c2Plan c2Agent "boom"
      (List.mem_singleton.mpr rfl) rfl rfl⟩

/-! ## C9: missing agents across the three modes -/

/-- A plan referencing the unregistered agent id Z. -/
def c9Plan : ActionPlan := mkPlan "pz" "Z" 0

/-- Counterexample to claim C9: in predefined mode (and the identical loop
of autonomous mode) a plan whose agent is not registered is silently
skipped — the result list is empty, with no synthesized failed entry. -/
theorem c9_missing_agent_counterexample :
    orchestrateCode emptyOrchestrator wCtx [c9Plan] = .ok ([] : List ExecutionResult) ∧
    missingAgentResult 0 c9Plan.agentId ∉ ([] : List ExecutionResult) := by
  exact ⟨rfl, by simp⟩

/-- Claim C9 as amended: a missing agent never causes a throw in any mode,
but only parallel mode surfaces it as data — its execution slot is the
already-resolved synthesized failed result, with sibling slots unchanged —
while the shared sequential loop of autonomous and predefined modes
silently skips the plan, leaving the result list as if the plan were
absent. -/
theorem c9_missing_agent_amended (s : OrchestratorState) (ctx : RunContext)
    (now : ℚ) (flow1 flow2 : List ActionPlan) (p : ActionPlan)
    (hmiss : mapGet s.agents p.agentId = none) :
    runQueue s.agents ctx (flow1 ++ p :: flow2) =
      runQueue s.agents ctx (flow1 ++ flow2) ∧
    orchestrateCode s ctx (flow1 ++ p :: flow2) =
      orchestrateCode s ctx (flow1 ++ flow2) ∧
    parallelExecutions s ctx (flow1 ++ p :: flow2) now =
      parallelExecutions s ctx flow1 now ++
        Except.ok (missingAgentResult now p.agentId) ::
          parallelExecutions s ctx flow2 now := by
  have h1 : runQueue s.agents ctx (flow1 ++ p :: flow2) =
      runQueue s.agents ctx (flow1 ++ flow2) := by
    rw [runQueue_append, runQueue_append, runQueue_cons]
    simp [hmiss]
  refine ⟨h1, ?_, ?_⟩
  · rw [orchestrateCode, orchestrateCode, h1]
  · rw [parallelExecutions, parallelExecutions, parallelExecutions,
      List.map_append, List.map_cons]
    simp [hmiss]

/-- Witness for C9's amended theorem: plan pz (agent Z missing) between an
empty prefix and a suffix owned by the registered agent B. -/
theorem c9_missing_agent_amended_witness :
    mapGet c1State.agents c9Plan.agentId = none ∧
    (runQueue c1State.agents wCtx ([] ++ c9Plan :: [c1PlanB]) =
      runQueue c1State.agents wCtx ([] ++ [c1PlanB]) ∧
    orchestrateCode c1State wCtx ([] ++ c9Plan :: [c1PlanB]) =
      orchestrateCode c1State wCtx ([] ++ [c1PlanB]) ∧
    parallelExecutions c1State wCtx ([] ++ c9Plan :: [c1PlanB]) 0 =
      parallelExecutions c1State wCtx [] 0 ++
        Except.ok (missingAgentResult 0 c9Plan.agentId) ::
          parallelExecutions c1State wCtx [c1PlanB] 0) :=
  ⟨rfl, c9_missing_agent_amended c1State wCtx 0 [] [c1PlanB] c9Plan rfl⟩

/-! ## C5: createContext and the caller's data object -/

/-- Initial heap of the C5 scenario: one object, at reference 0, holding
key k with value 1. -/
def c5Heap0 : Heap := [[("k", JSValue.num 1)]]

/-- The context created over reference 0 of the C5 heap. -/
def c5Ctx : RunContext := (createContext emptyOrchestrator "ctx-5" 0 none).2

/-- The C5 heap after the caller mutates its original object. -/
def c5Heap1 : Heap := c5Heap0.set 0 [("k", JSValue.num 2)]

/-- Counterexample to claim C5: createContext stores the caller's data
object by reference (the source writes the shorthand property data with no
copy), so mutating the original object after the call changes what the
stored context's data reads back — the copy-on-create invariant fails. -/
theorem c5_copy_on_create_counterexample :
    readData c5Heap1 c5Ctx ≠ readData c5Heap0 c5Ctx ∧
    readData c5Heap1 c5Ctx = some [("k", JSValue.num 2)] := by
  constructor <;> decide

/-- Claim C5 as amended: the new context aliases the supplied data object —
createContext keeps the caller's reference, and any later mutation of the
original object is visible through the stored context. -/
theorem c5_alias_amended (s : OrchestratorState) (freshId : String)
    (heap : Heap) (dataRef : Nat) (parent : Option RunContext)
    (newRec : JSRecord) (h : dataRef < heap.length) :
    ((createContext s freshId dataRef parent).2).dataRef = dataRef ∧
    readData (heap.set dataRef newRec)
      (createContext s freshId dataRef parent).2 = some newRec := by
  refine ⟨rfl, ?_⟩
  show (heap.set dataRef newRec).get? dataRef = some newRec
  simp [List.get?_eq_getElem?, List.getElem?_set_self, h]

/-- Witness for C5's amended theorem on the concrete C5 heap. -/
theorem c5_alias_amended_witness :
    0 < c5Heap0.length ∧
    (((createContext emptyOrchestrator "ctx-5" 0 none).2).dataRef = 0 ∧
    readData (c5Heap0.set 0 [("k", JSValue.num 2)])
      (createContext emptyOrchestrator "ctx-5" 0 none).2 =
        some [("k", JSValue.num 2)]) :=
  ⟨by decide, c5_alias_amended emptyOrchestrator "ctx-5" c5Heap0 0 none
    [("k", JSValue.num 2)] (by decide)⟩

/-! ## C6: autonomous mode executes in descending priority order -/

/-- The high-priority plan of the C6 scenario. -/
def c6PlanFast : ActionPlan := mkPlan "pf" "fast" 5

/-- The low-priority plan of the C6 scenario. -/
def c6PlanSlow : ActionPlan := mkPlan "ps" "slow" 1

/-- Orchestrator of the C6 scenario: the low-priority agent registers
first, so sorting must actually reorder. -/
def c6State : OrchestratorState :=
  registerAgent (registerAgent emptyOrchestrator
    (mkAgent "slow" (.ok c6PlanSlow) (.ok (mkOkResult "slow-out"))))
    (mkAgent "fast" (.ok c6PlanFast) (.ok (mkOkResult "fast-out")))

/-- Claim C6: orchestrateLLM executes the queued plans sequentially in the
order llmExecutionOrder, which is sorted descending by priority — a plan of
strictly higher priority sits strictly earlier, so its execute call
completes before the lower-priority one begins; ties keep insertion order
(the filter equation: within one priority the sorted queue preserves the
original queue-plus-collected-plans order); and the result list is produced
by the sequential loop over exactly that order. -/
theorem c6_priority_order (s : OrchestratorState) (ctx : RunContext)
    (i j : Nat) (c : ℚ)
    (hi : i < (llmExecutionOrder s ctx).length)
    (hj : j < (llmExecutionOrder s ctx).length)
    (hpr : ((llmExecutionOrder s ctx).getD j defaultPlan).priority <
      ((llmExecutionOrder s ctx).getD i defaultPlan).priority) :
    i < j ∧
    (orchestrateLLM s ctx).2 =
      .ok (runQueue s.agents ctx (llmExecutionOrder s ctx)) ∧
    (llmExecutionOrder s ctx).filter (fun x => decide (x.priority = c)) =
      (s.executionQueue ++ collectPlans s.agents ctx).filter
        (fun x => decide (x.priority = c)) := by
  refine ⟨?_, rfl, ?_⟩
  · have hpw : (llmExecutionOrder s ctx).Pairwise
        fun a b => b.priority ≤ a.priority := by
      unfold llmExecutionOrder
      exact pairwise_sortByPriorityDesc _
    rw [List.pairwise_iff_getElem] at hpw
    rw [List.getD_eq_getElem _ _ hi, List.getD_eq_getElem _ _ hj] at hpr
    by_contra hc
    push_neg at hc
    rcases Nat.lt_or_ge j i with hji | hij
    · exact absurd hpr (not_lt.mpr (hpw j i hj hi hji))
    · have hijeq : i = j := le_antisymm hij hc
      subst hijeq
      exact lt_irrefl _ hpr
  · unfold llmExecutionOrder
    exact filter_priority_sortByPriorityDesc c _

/-- Witness for C6 on the concrete two-agent orchestrator: the sorted order
is [fast (priority 5), slow (priority 1)], so position 0 strictly
outranks position 1 and indeed 0 < 1. -/
theorem c6_priority_order_witness :
    0 < (llmExecutionOrder c6State wCtx).length ∧
    1 < (llmExecutionOrder c6State wCtx).length ∧
    ((llmExecutionOrder c6State wCtx).getD 1 defaultPlan).priority <
      ((llmExecutionOrder c6State wCtx).getD 0 defaultPlan).priority ∧
    ((0 : Nat) < 1 ∧
    (orchestrateLLM c6State wCtx).2 =
      .ok (runQueue c6State.agents wCtx (llmExecutionOrder c6State wCtx)) ∧
    (llmExecutionOrder c6State wCtx).filter (fun x => decide (x.priority = (5 : ℚ))) =
      (c6State.executionQueue ++ collectPlans c6State.agents wCtx).filter
        (fun x => decide (x.priority = (5 : ℚ)))) :=
  ⟨by decide, by decide, by decide,
    c6_priority_order c6State wCtx 0 1 5 (by decide) (by decide) (by decide)⟩

/-! ## C10: the execution queue is never cleared -/

/-- The plan the single C10 agent produces on every run. -/
def c10Plan : ActionPlan := mkPlan "p1" "P" 2

/-- Orchestrator of the C10 scenario: one agent that plans c10Plan. -/
def c10State : OrchestratorState :=
  registerAgent emptyOrchestrator
    (mkAgent "P" (.ok c10Plan) (.ok (mkOkResult "P-out")))

/-- Claim C10: executionQueue is an instance field that orchestrateLLM
appends to and sorts but never clears — after a run it holds the whole
sorted order just executed, so a second orchestrateLLM call executes every
plan accumulated during the first run again, alongside the plans the second
planning phase collects. -/
theorem c10_queue_accumulates (s : OrchestratorState) (ctx1 ctx2 : RunContext)
    (p q : ActionPlan) (hp : p ∈ llmExecutionOrder s ctx1)
    (hq : q ∈ collectPlans (orchestrateLLM s ctx1).1.agents ctx2) :
    (orchestrateLLM s ctx1).1.executionQueue = llmExecutionOrder s ctx1 ∧
    p ∈ llmExecutionOrder (orchestrateLLM s ctx1).1 ctx2 ∧
    q ∈ llmExecutionOrder (orchestrateLLM s ctx1).1 ctx2 := by
  refine ⟨rfl, ?_, ?_⟩
  · unfold llmExecutionOrder
    exact mem_sortByPriorityDesc.mpr (List.mem_append_left _ hp)
  · unfold llmExecutionOrder
    exact mem_sortByPriorityDesc.mpr (List.mem_append_right _ hq)

/-- Witness for C10: with the single planning agent P, the plan executed in
the first run is executed again by the second run. -/
theorem c10_queue_accumulates_witness :
    c10Plan ∈ llmExecutionOrder c10State wCtx ∧
    c10Plan ∈ collectPlans (orchestrateLLM c10State wCtx).1.agents wCtx ∧
    ((orchestrateLLM c10State wCtx).1.executionQueue =
      llmExecutionOrder c10State wCtx ∧
    c10Plan ∈ llmExecutionOrder (orchestrateLLM c10State wCtx).1 wCtx ∧
    c10Plan ∈ llmExecutionOrder (orchestrateLLM c10State wCtx).1 wCtx) :=
  ⟨by decide, by decide,
    c10_queue_accumulates c10State wCtx wCtx c10Plan c10Plan
      (by decide) (by decide)⟩

/-! ## C3: parallel mode with a missing agent -/

/-- Claim C3: whenever every registered agent referenced by the plan list
has a resolving execute call, executeParallel resolves with a list of
exactly one entry per input plan, in input order: a plan whose agent id is
not registered gets the synthesized failed result with the defined error
text, and every other slot is precisely its own agent's execute result. -/
theorem c3_parallel_missing_agent (s : OrchestratorState) (ctx : RunContext)
    (plans : List ActionPlan) (now : ℚ)
    (hres : ∀ plan ∈ plans, ∀ a, mapGet s.agents plan.agentId = some a →
      ∃ r, a.execute ctx plan = .ok r) :
    ∃ l, executeParallel s ctx plans now = .ok l ∧
      l.length = plans.length ∧
      ∀ i, i < plans.length →
        (mapGet s.agents (plans.getD i defaultPlan).agentId = none →
          l.getD i defaultExecutionResult =
            missingAgentResult now (plans.getD i defaultPlan).agentId) ∧
        ∀ a, mapGet s.agents (plans.getD i defaultPlan).agentId = some a →
          a.execute ctx (plans.getD i defaultPlan) =
            .ok (l.getD i defaultExecutionResult) := by
  revert hres
  induction plans with
  | nil =>
    intro _
    exact ⟨[], rfl, rfl, fun i hi => absurd hi (Nat.not_lt_zero i)⟩
  | cons p ps ih =>
    intro hres
    obtain ⟨l, hl, hlen, hslot⟩ :=
      ih fun plan hm => hres plan (List.mem_cons_of_mem _ hm)
    have hl' : promiseAll (parallelExecutions s ctx ps now) = .ok l := hl
    cases hag : mapGet s.agents p.agentId with
    | none =>
      refine ⟨missingAgentResult now p.agentId :: l, ?_, ?_, ?_⟩
      · show promiseAll (parallelExecutions s ctx (p :: ps) now) = _
        rw [parallelExecutions_cons, hag]
        show (promiseAll (parallelExecutions s ctx ps now)).map _ = _
        rw [hl']
        rfl
      · simpa using hlen
      · intro i hi
        cases i with
        | zero =>
          constructor
          · intro _
            rfl
          · intro a ha
            rw [List.getD_cons_zero] at ha
            rw [hag] at ha
            cases ha
        | succ n =>
          have hn : n < ps.length := Nat.lt_of_succ_lt_succ hi
          constructor
          · intro hmiss
            rw [List.getD_cons_succ] at hmiss ⊢
            rw [List.getD_cons_succ]
            exact (hslot n hn).1 hmiss
          · intro a ha
            rw [List.getD_cons_succ] at ha ⊢
            rw [List.getD_cons_succ]
            exact (hslot n hn).2 a ha
    | some a =>
      obtain ⟨r, hr⟩ := hres p (List.mem_cons_self p ps) a hag
      refine ⟨r :: l, ?_, ?_, ?_⟩
      · show promiseAll (parallelExecutions s ctx (p :: ps) now) = _
        rw [parallelExecutions_cons, hag]
        show promiseAll (a.execute ctx p :: parallelExecutions s ctx ps now) = _
        rw [hr]
        show (promiseAll (parallelExecutions s ctx ps now)).map _ = _
        rw [hl']
        rfl
      · simpa using hlen
      · intro i hi
        cases i with
        | zero =>
          constructor
          · intro hmiss
            rw [List.getD_cons_zero] at hmiss
            rw [hag] at hmiss
            cases hmiss
          · intro a2 ha2
            rw [List.getD_cons_zero] at ha2 ⊢
            rw [List.getD_cons_zero]
            rw [hag] at ha2
            cases ha2
            exact hr
        | succ n =>
          have hn : n < ps.length := Nat.lt_of_succ_lt_succ hi
          constructor
          · intro hmiss
            rw [List.getD_cons_succ] at hmiss ⊢
            rw [List.getD_cons_succ]
            exact (hslot n hn).1 hmiss
          · intro a2 ha2
            rw [List.getD_cons_succ] at ha2 ⊢
            rw [List.getD_cons_succ]
            exact (hslot n hn).2 a2 ha2

/-- Agent X of the C3 witness scenario. -/
def c3AgentX : IAgent := mkAgent "X" (.error "no plan") (.ok (mkOkResult "X-out"))

/-- Agent Y of the C3 witness scenario. -/
def c3AgentY : IAgent := mkAgent "Y" (.error "no plan") (.ok (mkOkResult "Y-out"))

/-- Orchestrator of the C3 witness scenario: X and Y registered, Z absent. -/
def c3State : OrchestratorState :=
  registerAgent (registerAgent emptyOrchestrator c3AgentX) c3AgentY

/-- The three plans of the C3 witness scenario; pz references the
unregistered agent Z. -/
def c3Plans : List ActionPlan :=
  [mkPlan "px" "X" 0, mkPlan "py" "Y" 0, mkPlan "pz" "Z" 0]

/-- Witness for C3: plans for X, Y and the missing Z, where both registered
agents resolve. -/
theorem c3_parallel_missing_agent_witness :
    (∀ plan ∈ c3Plans, ∀ a, mapGet c3State.agents plan.agentId = some a →
      ∃ r, a.execute wCtx plan = .ok r) ∧
    (∃ l, executeParallel c3State wCtx c3Plans 0 = .ok l ∧
      l.length = c3Plans.length ∧
      ∀ i, i < c3Plans.length →
        (mapGet c3State.agents (c3Plans.getD i defaultPlan).agentId = none →
          l.getD i defaultExecutionResult =
            missingAgentResult 0 (c3Plans.getD i defaultPlan).agentId) ∧
        ∀ a, mapGet c3State.agents (c3Plans.getD i defaultPlan).agentId = some a →
          a.execute wCtx (c3Plans.getD i defaultPlan) =
            .ok (l.getD i defaultExecutionResult)) := by
  have hres : ∀ plan ∈ c3Plans, ∀ a,
      mapGet c3State.agents plan.agentId = some a →
      ∃ r, a.execute wCtx plan = .ok r := by
    intro plan hm a ha
    fin_cases hm
    · have ha' : (some c3AgentX : Option IAgent) = some a := ha
      cases ha'
      exact ⟨mkOkResult "X-out", rfl⟩
    · have ha' : (some c3AgentY : Option IAgent) = some a := ha
      cases ha'
      exact ⟨mkOkResult "Y-out", rfl⟩
    · have ha' : (none : Option IAgent) = some a := ha
      cases ha'
  exact ⟨hres, c3_parallel_missing_agent c3State wCtx c3Plans 0 hres⟩

end Orchestration
